import Mathlib

/-!
Verification of the PixelTales frontend state-synchronization core.

This file gives a shallow embedding, in Lean, of the client-side modules of
the repository:

* `SocketService` (src/frontend/src/services/socket.ts): connection lifecycle,
  bounded reconnection, listener fan-out;
* `SpeechBubbleManager`, `CharacterManager`, `StateManager`, `HistoryManager`
  (src/frontend/src/game/managers/*.ts): snapshot ingestion, live/history mode
  toggling, history-cursor navigation and speech-effect derivation;
* the event wiring of `EventManager` and `MainScene`.

TypeScript objects become Lean structures; JS `Map`s become association lists
in insertion order; thrown exceptions become an explicit `Option String` error
component, with all mutations performed before the throw kept (matching JS
semantics, where a handler's partial effects survive an exception).  Theorems
then settle the testable properties stated in the design specification.
-/

set_option autoImplicit false

/-! ### Data model (src/docs/api.md, src/frontend/src/types/scene) -/

/-- 2-D position of a character, as carried in a snapshot. -/
structure Position where
  x : Int
  y : Int
deriving DecidableEq, Repr

/-- The per-character authoritative state inside a snapshot.  Only the fields
the frontend managers actually read are embedded. -/
structure CharacterState where
  name : String
  color : String
  position : Position
  direction : String
  current_mood : String
  action : String
deriving DecidableEq, Repr

/-- One conversation message.  `content` is `none` while a turn is pending
(`string | null` in the source). -/
structure Message where
  character : String
  content : Option String
  recipient : String
  mood : String
  mood_emoji : String
  calculated_speaking_time : Nat
deriving DecidableEq, Repr

/-- One authoritative scene snapshot (`SceneState` in the source).
`characters` is the entry list of the JS object, in key-insertion order. -/
structure SceneState where
  characters : List (String × CharacterState)
  messages : List Message
  conversation_active : Bool
  conversation_ended : Bool
  visitor_count : Nat
deriving DecidableEq, Repr

/-! ### Transport Channel (src/frontend/src/services/socket.ts) -/

namespace SocketService

/-- Maximum number of reconnection attempts (`MAX_RECONNECT_ATTEMPTS`). -/
def MAX_RECONNECT_ATTEMPTS : Nat := 5

/-- The mutable fields of the `SocketService` singleton.  `socket` is `none`
when no socket object exists; `some b` holds the connected flag of the live
socket.io socket. -/
structure State where
  socket : Option Bool
  reconnectAttempts : Nat
  isConnecting : Bool
deriving DecidableEq, Repr

/-- Fresh service state: no socket, zero attempts. -/
def State.initial : State := ⟨none, 0, false⟩

/-- Whether the held socket reports `connected` (false when `socket` is null,
matching the optional chaining `this.socket?.connected`). -/
def State.socketConnected (s : State) : Bool :=
  match s.socket with
  | some b => b
  | none => false

/-- `connect()`: no-op if already connected or a connection attempt is in
flight; otherwise creates a socket (initially unconnected) and marks the
service as connecting. -/
def connect (s : State) : State :=
  if s.socketConnected || s.isConnecting then s
  else { s with socket := some false, isConnecting := true }

/-- `disconnect()`: if a socket exists, disconnect and release it and clear
the connecting flag.  The attempt counter is not touched. -/
def disconnect (s : State) : State :=
  match s.socket with
  | some _ => { s with socket := none, isConnecting := false }
  | none => s

/-- Handler for the `connect` event: reset the attempt counter, clear the
connecting flag; the socket is now connected. -/
def handleConnect (s : State) : State :=
  { socket := s.socket.map (fun _ => true)
    reconnectAttempts := 0
    isConnecting := false }

/-- Handler for the `connect_error` event: increment the attempt counter and,
once it reaches the maximum, tear the socket down via `disconnect`. -/
def handleConnectError (s : State) : State :=
  let s := { s with reconnectAttempts := s.reconnectAttempts + 1 }
  if MAX_RECONNECT_ATTEMPTS ≤ s.reconnectAttempts then disconnect s else s

/-- A further automatic reconnection attempt can only be initiated while the
service still holds a socket object: `disconnect()` destroys the socket.io
manager that performs the retries. -/
def State.canRetry (s : State) : Bool := s.socket.isSome

/-- The service state after a fresh `connect()` followed by `n` consecutive
`connect_error` events with no intervening successful connection. -/
def afterErrors (n : Nat) : State :=
  Nat.rec (connect State.initial) (fun _ s => handleConnectError s) n

end SocketService

/-! ### Listener fan-out (`SocketService.notifyListeners`) -/

/-- A registered listener, abstracted by its identity and by whether its
callback throws when invoked with the event data. -/
structure MListener where
  id : Nat
  throwsOnCall : Bool
deriving DecidableEq, Repr

/-- `notifyListeners`: `this.listeners.get(event)?.forEach(cb => cb(data))`.
The `Set` iterates in insertion (subscription) order; an exception thrown by a
callback propagates out of `forEach`, aborting the iteration.  Returns the
ids invoked, in order, and whether an exception escaped. -/
def notifyListeners : List MListener → List Nat × Bool
  | [] => ([], false)
  | l :: rest =>
    if l.throwsOnCall then ([l.id], true)
    else
      let r := notifyListeners rest
      (l.id :: r.1, r.2)

/-! ### Association-list maps (JS `Map`, insertion order) -/

/-- First value bound to key `k`, like `Map.get`. -/
def lookupA {β : Type} : List (String × β) → String → Option β
  | [], _ => none
  | p :: rest, k => if p.1 = k then some p.2 else lookupA rest k

/-- `Map.set`: replace the binding when the key is present, else append. -/
def setA {β : Type} (m : List (String × β)) (k : String) (v : β) :
    List (String × β) :=
  if (lookupA m k).isSome then
    m.map (fun p => if p.1 = k then (k, v) else p)
  else m ++ [(k, v)]

/-! ### CharacterManager (src/frontend/src/game/managers/CharacterManager.ts) -/

/-- The render-relevant part of one managed `Character`: the stored character
state, the stored color, whether the sprite carries the active tint, whether a
running bounce tween exists, and whether a thinking sprite is shown.  A
stopped-but-referenced tween is identified with an absent one: stopping a
stopped tween is a no-op and neither animates. -/
structure MChar where
  state : CharacterState
  color : String
  tintActive : Bool
  bouncing : Bool
  thinking : Bool
deriving DecidableEq, Repr

/-- The `characters` map of the manager. -/
def CharMgr : Type := List (String × MChar)

instance : DecidableEq CharMgr := by
  unfold CharMgr
  infer_instance

instance : Repr CharMgr := by
  unfold CharMgr
  infer_instance

/-- `updateCharacterState`: record the new state, then set tint/bounce from
the action (`idle` stops the tween and dims; any other action brightens and
starts a bounce only on an action change), and create or destroy the thinking
sprite according to whether the action starts with `thinking`. -/
def updateCharacterState (c : MChar) (st : CharacterState) : MChar :=
  let prev := c.state
  let c := { c with state := st }
  let isChange := st.action ≠ prev.action
  let c :=
    if st.action = "idle" then { c with bouncing := false, tintActive := false }
    else { c with tintActive := true, bouncing := isChange }
  if st.action.startsWith "thinking" then { c with thinking := true }
  else { c with thinking := false }

/-- A freshly constructed `Character` record: `state` is already the incoming
snapshot data (so the immediately following `updateCharacterState` sees no
action change), with no tween and no thinking sprite. -/
def freshChar (st : CharacterState) : MChar :=
  ⟨st, st.color, false, false, false⟩

/-- One iteration of `updateCharacters`: create the character if missing,
otherwise refresh its stored color, then run `updateCharacterState`. -/
def updateOneCharacter (m : CharMgr) (k : String) (st : CharacterState) :
    CharMgr :=
  match lookupA m k with
  | none => setA m k (updateCharacterState (freshChar st) st)
  | some c => setA m k (updateCharacterState { c with color := st.color } st)

/-- `updateCharacters`: fold over the snapshot's character entries. -/
def updateCharacters (m : CharMgr) (s : SceneState) : CharMgr :=
  s.characters.foldl (fun m p => updateOneCharacter m p.1 p.2) m

/-- `clearCharactersAnimations`: stop and drop every bounce tween and destroy
every thinking sprite (the tint is left untouched). -/
def clearAnims (m : CharMgr) : CharMgr :=
  m.map (fun p => (p.1, { p.2 with bouncing := false, thinking := false }))

/-! ### SpeechBubbleManager
    (src/frontend/src/game/managers/SpeechBubbleManager.ts) -/

/-- JS truthiness of a `string | null` value: null and the empty string are
falsy. -/
def strTruthy : Option String → Bool
  | none => false
  | some s => s ≠ ""

/-- The data captured by `createSpeechBubble` for one active bubble. -/
structure BubbleInfo where
  content : String
  characterName : String
  speakingTime : Option Nat
  mood : String
  emoji : String
  color : String
deriving DecidableEq, Repr

/-- The `activeBubbles` map. -/
def BubbleMap : Type := List (String × BubbleInfo)

instance : DecidableEq BubbleMap := by
  unfold BubbleMap
  infer_instance

instance : Repr BubbleMap := by
  unfold BubbleMap
  infer_instance

/-- `character?.color || '#000000'`: the stored color, with both a missing
character and an empty color string falling back to black. -/
def bubbleColor (c : Option MChar) : String :=
  match c with
  | some ch => if ch.color = "" then "#000000" else ch.color
  | none => "#000000"

/-- Processing of one character entry inside `updateBubbles`.  For a speaking
character: look the character up in the manager and select its latest own
message; the guard `character && message.content` short-circuits when the
character is absent, but dereferences `message.content` when the character is
present — a `TypeError` when the character has no message at all.  A bubble
is created only when the content is truthy. -/
def updateBubblesStep (mgr : CharMgr) (msgs : List Message) (acc : BubbleMap)
    (k : String) (v : CharacterState) : Except String BubbleMap :=
  if v.action = "speaking" then
    match lookupA mgr k with
    | none => .ok acc
    | some ch =>
      match (msgs.filter (fun m => m.character = k)).getLast? with
      | none => .error "TypeError: cannot read properties of undefined"
      | some msg =>
        if strTruthy msg.content then
          .ok (setA acc k
            { content := msg.content.getD ""
              characterName := v.name
              speakingTime := some msg.calculated_speaking_time
              mood := msg.mood
              emoji := msg.mood_emoji
              color := bubbleColor (some ch) })
        else .ok acc
  else .ok acc

/-- The entry loop of `updateBubbles`.  An exception aborts the loop; bubbles
created before the throw stay in `activeBubbles`. -/
def updateBubblesGo (mgr : CharMgr) (msgs : List Message) :
    List (String × CharacterState) → BubbleMap → BubbleMap × Option String
  | [], acc => (acc, none)
  | (k, v) :: rest, acc =>
    match updateBubblesStep mgr msgs acc k v with
    | .ok acc2 => updateBubblesGo mgr msgs rest acc2
    | .error e => (acc, some e)

/-- `updateBubbles`: clear all bubbles, then create one per speaking
character; returns the resulting map and the escaped exception, if any. -/
def updateBubblesRun (mgr : CharMgr) (s : SceneState) :
    BubbleMap × Option String :=
  updateBubblesGo mgr s.messages s.characters []

/-- `showHistoricalBubble`: clear all bubbles, then show one static bubble
(no speaking-time countdown) for the given message if its character exists. -/
def showHistoricalBubble (mgr : CharMgr) (msg : Message) : BubbleMap :=
  match lookupA mgr msg.character with
  | some ch =>
    [(msg.character,
      { content := msg.content.getD ""
        characterName := ch.state.name
        speakingTime := none
        mood := msg.mood
        emoji := msg.mood_emoji
        color := bubbleColor (some ch) })]
  | none => []

/-! ### HistoryManager navigation
    (src/frontend/src/game/managers/HistoryManager.ts) -/

/-- The navigation-relevant fields of `HistoryManager`: the cursor and the
log frozen while History mode is active. -/
structure HistoryNav where
  currentHistoryIndex : Int
  conversationHistory : List Message
deriving DecidableEq, Repr

/-- Outcome of one `navigateHistory` call: either the move was committed and
the `historyNavigate` signal emitted with the new index, or the move was
rejected and the invalid-navigation visual feedback pulsed once. -/
inductive NavOutcome where
  | committed (idx : Int)
  | invalidFeedback
deriving DecidableEq, Repr

/-- `navigateHistory(direction)`: compute `newIndex`; commit and signal when
`0 <= newIndex < conversationHistory.length`, otherwise leave the cursor
unchanged and raise the invalid-navigation feedback. -/
def navigateHistory (h : HistoryNav) (direction : Int) :
    HistoryNav × NavOutcome :=
  let newIndex := h.currentHistoryIndex + direction
  if 0 ≤ newIndex ∧ newIndex < (h.conversationHistory.length : Int) then
    ({ h with currentHistoryIndex := newIndex }, .committed newIndex)
  else (h, .invalidFeedback)

/-! ### The composite client (StateManager + CharacterManager +
    SpeechBubbleManager + HistoryManager, wired by EventManager and the
    scenes' event emitters) -/

/-- The combined mutable state of the managers owned by `MainScene` and the
`HistoryManager` of `UIScene`.  `currentState`/`smHistoryMode` live in
`StateManager`; `chars` in `CharacterManager`; `bubbles` in
`SpeechBubbleManager`; the last three fields in `HistoryManager`. -/
structure ClientState where
  currentState : Option SceneState
  smHistoryMode : Bool
  chars : CharMgr
  bubbles : BubbleMap
  hmHistoryMode : Bool
  historyIndex : Int
  conversationHistory : List Message
deriving DecidableEq, Repr

/-- Client state at scene start. -/
def ClientState.initial : ClientState :=
  { currentState := none
    smHistoryMode := false
    chars := []
    bubbles := []
    hmHistoryMode := false
    historyIndex := -1
    conversationHistory := [] }

/-- `StateManager.updateState`: store the snapshot unconditionally; in live
mode additionally update the characters and bubbles and emit
`sceneStateUpdate`, whose only listener (in `HistoryManager`) refreshes the
conversation history and tail cursor when History mode is off.  An exception
from `updateBubbles` skips the emit but keeps all prior mutations. -/
def smUpdateState (c : ClientState) (s : SceneState) :
    ClientState × Option String :=
  let c := { c with currentState := some s }
  if c.smHistoryMode then (c, none)
  else
    let chars2 := updateCharacters c.chars s
    let bres := updateBubblesRun chars2 s
    let c := { c with chars := chars2, bubbles := bres.1 }
    match bres.2 with
    | some e => (c, some e)
    | none =>
      if c.hmHistoryMode then (c, none)
      else
        ({ c with
            conversationHistory := s.messages
            historyIndex := (s.messages.length : Int) - 1 }, none)

/-- `CharacterManager.handleHistoryModeChange`: entering History mode clears
every bounce tween and thinking sprite; leaving it does nothing. -/
def cmHistoryModeChange (c : ClientState) (b : Bool) : ClientState :=
  if b then { c with chars := clearAnims c.chars } else c

/-- `StateManager.historyModeChange`: record the mode; with a current
snapshot, entering History shows the historical bubble of the last message —
a `TypeError` when the message list is empty, thrown after the mode flag was
already set — and leaving History re-renders the current snapshot through
`updateCharacters` and `updateBubbles`. -/
def smHistoryModeChange (c : ClientState) (b : Bool) :
    ClientState × Option String :=
  let c := { c with smHistoryMode := b }
  match c.currentState with
  | none => (c, none)
  | some st =>
    if b then
      match st.messages.getLast? with
      | none => (c, some "TypeError: cannot read properties of undefined")
      | some m => ({ c with bubbles := showHistoricalBubble c.chars m }, none)
    else
      let chars2 := updateCharacters c.chars st
      let bres := updateBubblesRun chars2 st
      ({ c with chars := chars2, bubbles := bres.1 }, bres.2)

/-- Emission of `historyModeChange`: `CharacterManager` subscribed first
(MainScene.create), then `EventManager`, which forwards to
`StateManager.historyModeChange`. -/
def emitHistoryModeChange (c : ClientState) (b : Bool) :
    ClientState × Option String :=
  smHistoryModeChange (cmHistoryModeChange c b) b

/-- `HistoryManager.handleEnterHistoryMode`: set the mode flag, put the
cursor at the tail of the (frozen) history, then emit `historyModeChange`. -/
def enterHistory (c : ClientState) : ClientState × Option String :=
  let c := { c with
    hmHistoryMode := true
    historyIndex := (c.conversationHistory.length : Int) - 1 }
  emitHistoryModeChange c true

/-- `HistoryManager.handleExitHistoryMode`: clear the mode flag, reset the
cursor to the tail, then emit `historyModeChange`. -/
def exitHistory (c : ClientState) : ClientState × Option String :=
  let c := { c with
    hmHistoryMode := false
    historyIndex := (c.conversationHistory.length : Int) - 1 }
  emitHistoryModeChange c false

/-- `StateManager.navigateHistory(index)`: while History mode is on and the
current snapshot has a message at `index`, show its historical bubble. -/
def smNavigateHistory (c : ClientState) (idx : Int) : ClientState :=
  if c.smHistoryMode then
    match c.currentState with
    | some st =>
      match st.messages.get? idx.toNat with
      | some m => { c with bubbles := showHistoricalBubble c.chars m }
      | none => c
    | none => c
  else c

/-- The `historyNavigateTo` event: `HistoryManager.navigateHistory` moves the
cursor (or pulses the invalid feedback), and a committed move emits
`historyNavigate`, handled by `StateManager.navigateHistory`. -/
def navigateEvent (c : ClientState) (d : Int) : ClientState × NavOutcome :=
  let r := navigateHistory ⟨c.historyIndex, c.conversationHistory⟩ d
  match r.2 with
  | .committed n =>
    (smNavigateHistory { c with historyIndex := n } n, .committed n)
  | .invalidFeedback => (c, .invalidFeedback)

/-- The discrete inputs reaching the composite client. -/
inductive ClientEvent where
  | snapshot (s : SceneState)
  | enterHist
  | exitHist
  | navigate (d : Int)

/-- One event delivery; a thrown exception ends the handler but the event
loop goes on, so the partially mutated state is kept. -/
def stepEvent (c : ClientState) : ClientEvent → ClientState × Option String
  | .snapshot s => smUpdateState c s
  | .enterHist => enterHistory c
  | .exitHist => exitHistory c
  | .navigate d => ((navigateEvent c d).1, none)

/-- Deliver a sequence of events. -/
def runEvents (c : ClientState) (es : List ClientEvent) : ClientState :=
  es.foldl (fun c e => (stepEvent c e).1) c

/-- The snapshot carried by an event, if any. -/
def eventSnap? : ClientEvent → Option SceneState
  | .snapshot s => some s
  | _ => none

/-- The rendering derived for a snapshot `s`: what the scene shows for each
of the snapshot's characters (the managed character record, in snapshot entry
order) together with the full active-bubble map. -/
def renderObs (s : SceneState) (c : ClientState) :
    List (String × Option MChar) × BubbleMap :=
  (s.characters.map (fun p => (p.1, lookupA c.chars p.1)), c.bubbles)

/-! ### Sample data for concrete witnesses -/

/-- A sample position. -/
def samplePos : Position := ⟨1, 2⟩

/-- A speaking character. -/
def sampleSpeaking : CharacterState :=
  ⟨"Bob", "#ff0000", samplePos, "front", "happy", "speaking"⟩

/-- An idle character. -/
def sampleIdle : CharacterState :=
  ⟨"Alice", "#00ff00", samplePos, "left", "calm", "idle"⟩

/-- A completed message by `bob`. -/
def sampleMsg : Message := ⟨"bob", some "hello", "alice", "happy", "e", 4⟩

/-- A message by `bob` whose turn is still pending (`content` null). -/
def samplePendingMsg : Message := ⟨"bob", none, "alice", "happy", "e", 4⟩

/-- Snapshot with a speaking `bob` and his finished message. -/
def sampleSnap : SceneState :=
  ⟨[("bob", sampleSpeaking), ("alice", sampleIdle)], [sampleMsg], true, false, 3⟩

/-- Snapshot with a speaking `bob` and an empty message log. -/
def sampleSnapNoMsg : SceneState :=
  ⟨[("bob", sampleSpeaking)], [], true, false, 3⟩

/-- Snapshot with a speaking `bob` whose only message has null content. -/
def sampleSnapPending : SceneState :=
  ⟨[("bob", sampleSpeaking)], [samplePendingMsg], true, false, 3⟩

/-! ### C2 — bounded reconnection -/

/-- Claim C2: after a fresh `connect()` and 5 consecutive `connect_error`
events with no intervening success, the service has torn the socket down
(terminal disconnected state, counter at the maximum) and can initiate no 6th
reconnection attempt, while each of the first 5 attempts still had a live
socket behind it. -/
theorem reconnect_stops_after_five_errors :
    (SocketService.afterErrors 5).socket = none ∧
    (SocketService.afterErrors 5).reconnectAttempts = 5 ∧
    (SocketService.afterErrors 5).canRetry = false ∧
    ((List.range 5).all fun k => (SocketService.afterErrors k).canRetry) = true := by
  decide

/-! ### C7 — disconnect() and the attempt counter -/

/-- Claim C7, counterexample: from a state with 3 recorded reconnection
attempts, `disconnect()` leaves the counter at 3, not at its initial value
zero — the claim that the counter is reset is false. -/
theorem disconnect_preserves_attempts_cex :
    (SocketService.disconnect ⟨some true, 3, false⟩).reconnectAttempts = 3 ∧
    ¬ (SocketService.disconnect ⟨some true, 3, false⟩).reconnectAttempts = 0 := by
  decide

/-- Claim C7, amended: `disconnect()` releases the socket and clears the
connecting flag, but leaves the reconnection-attempt counter unchanged; the
counter is reset to zero only by a successful `connect` event. -/
theorem disconnect_teardown_keeps_counter (s : SocketService.State) :
    (SocketService.disconnect s).socket = none ∧
    (SocketService.disconnect s).reconnectAttempts = s.reconnectAttempts ∧
    (SocketService.handleConnect s).reconnectAttempts = 0 := by
  rcases s with ⟨sock, ra, ic⟩
  cases sock <;> simp [SocketService.disconnect, SocketService.handleConnect]

/-! ### C3 — listener-failure isolation -/

/-- Claim C3, counterexample: with two subscribed listeners of which the
first throws, the second is never notified: one bad listener does block the
rest of the fan-out. -/
theorem throwing_listener_blocks_fanout_cex :
    (notifyListeners [⟨0, true⟩, ⟨1, false⟩]).1 = [0] ∧
    1 ∉ (notifyListeners [⟨0, true⟩, ⟨1, false⟩]).1 := by
  decide

/-- Claim C3, amended: listeners are notified in subscription order, but the
fan-out aborts at the first throwing listener — exactly the listeners up to
and including the first thrower are notified, the remaining ones are not, and
the exception escapes `notifyListeners` whenever any reached listener throws. -/
theorem fanout_stops_at_first_thrower (ls : List MListener) :
    notifyListeners ls =
      ((ls.takeWhile (fun l => !l.throwsOnCall)
          ++ (ls.dropWhile (fun l => !l.throwsOnCall)).take 1).map MListener.id,
       ls.any (·.throwsOnCall)) := by
  induction ls with
  | nil => rfl
  | cons l rest ih =>
    by_cases h : l.throwsOnCall = true
    · simp [notifyListeners, List.takeWhile_cons, List.dropWhile_cons, h]
    · simp only [Bool.not_eq_true] at h
      simp [notifyListeners, List.takeWhile_cons, List.dropWhile_cons, h, ih]

/-! ### C4 — malformed snapshot: speaking character with no messages -/

/-- The character manager after `updateCharacters` has run for the
no-messages snapshot, as it does inside `updateState` before `updateBubbles`. -/
def mgrNoMsg : CharMgr := updateCharacters [] sampleSnapNoMsg

/-- Claim C4 (code bug): on a snapshot whose character `bob` is `speaking`
while the message log is empty, `updateBubbles` does not skip the character —
the guard `character && message.content` dereferences the undefined message
and the whole render pass aborts with a TypeError, creating no bubbles. -/
theorem speaking_without_message_throws :
    updateBubblesRun mgrNoMsg sampleSnapNoMsg =
      ([], some "TypeError: cannot read properties of undefined") := by
  decide

/-! ### C5 — history cursor navigation bounds -/

/-- Claim C5: for direction d in +-1, `navigateHistory` commits the move to
`currentIndex + d` exactly when that index lies inside the frozen log;
otherwise the cursor is unchanged (in particular `navigate(+1)` at the tail
stays at the tail, no wraparound) and the single invalid-navigation feedback
signal is raised. -/
theorem navigate_commits_iff_in_bounds (h : HistoryNav) (d : Int)
    (hd : d = 1 ∨ d = -1) :
    ((navigateHistory h d).1.currentHistoryIndex = h.currentHistoryIndex + d ↔
      (0 ≤ h.currentHistoryIndex + d ∧
        h.currentHistoryIndex + d < (h.conversationHistory.length : Int))) ∧
    ((0 ≤ h.currentHistoryIndex + d ∧
        h.currentHistoryIndex + d < (h.conversationHistory.length : Int)) →
      navigateHistory h d =
        ({ h with currentHistoryIndex := h.currentHistoryIndex + d },
          .committed (h.currentHistoryIndex + d))) ∧
    (¬ (0 ≤ h.currentHistoryIndex + d ∧
        h.currentHistoryIndex + d < (h.conversationHistory.length : Int)) →
      navigateHistory h d = (h, .invalidFeedback)) := by
  by_cases hb : 0 ≤ h.currentHistoryIndex + d ∧
      h.currentHistoryIndex + d < (h.conversationHistory.length : Int)
  · have he : navigateHistory h d =
        ({ h with currentHistoryIndex := h.currentHistoryIndex + d },
          .committed (h.currentHistoryIndex + d)) := by
      unfold navigateHistory
      rw [if_pos hb]
    rw [he]
    exact ⟨⟨fun _ => hb, fun _ => rfl⟩, fun _ => rfl, fun hc => absurd hb hc⟩
  · have he : navigateHistory h d = (h, .invalidFeedback) := by
      unfold navigateHistory
      rw [if_neg hb]
    rw [he]
    dsimp only
    refine ⟨⟨fun heq => ?_, fun hc => absurd hc hb⟩, fun hc => absurd hc hb,
      fun _ => rfl⟩
    exact absurd heq (by rcases hd with rfl | rfl <;> omega)

/-- Witness for C5, the scenario of the specification: a frozen log of 3
entries with the cursor at index 0; `navigate(-1)` is rejected, the cursor
stays at 0 and the invalid-feedback signal fires. -/
theorem navigate_commits_iff_in_bounds_witness :
    ((-1 : Int) = 1 ∨ (-1 : Int) = -1) ∧
    navigateHistory ⟨0, [sampleMsg, sampleMsg, sampleMsg]⟩ (-1) =
      (⟨0, [sampleMsg, sampleMsg, sampleMsg]⟩, .invalidFeedback) := by
  refine ⟨Or.inr rfl, ?_⟩
  exact (navigate_commits_iff_in_bounds ⟨0, [sampleMsg, sampleMsg, sampleMsg]⟩
    (-1) (Or.inr rfl)).2.2 (by decide)

/-! ### C8 — subscription and replay (`addListener` / `notifyListeners`) -/

/-- An event at the listener registry: a listener attaching, or a snapshot
pushed over the channel and fanned out. -/
inductive ServiceEvent where
  | attach (l : Nat)
  | push (s : SceneState)

/-- `addListener`: insert into the event's listener `Set` (no effect when
already present).  Nothing is delivered to the new listener at attach time. -/
def addListener (ls : List Nat) (l : Nat) : List Nat :=
  if l ∈ ls then ls else ls ++ [l]

/-- The snapshots listener `l` receives while the registry, starting from
`ls`, processes the given events: a push is delivered to the listeners
subscribed at that moment, an attach only mutates the registry. -/
def deliveredTo (l : Nat) : List Nat → List ServiceEvent → List SceneState
  | _, [] => []
  | ls, .attach j :: rest => deliveredTo l (addListener ls j) rest
  | ls, .push s :: rest =>
    if l ∈ ls then s :: deliveredTo l ls rest
    else deliveredTo l ls rest

/-- Claim C8, counterexample: a snapshot is pushed (and is then the held
current snapshot), after which listener 0 attaches; the listener receives
nothing — not the one-time replay of the current snapshot the claim asserts. -/
theorem attach_replays_nothing_cex :
    deliveredTo 0 [] [.push sampleSnap, .attach 0] = [] ∧
    deliveredTo 0 [] [.push sampleSnap, .attach 0] ≠ [sampleSnap] := by
  constructor
  · rfl
  · intro h
    simp [deliveredTo, addListener] at h

/-- Pushes delivered to an already-subscribed listener. -/
theorem deliveredTo_pushes_of_mem (l : Nat) (ls : List Nat) (hl : l ∈ ls) :
    ∀ post : List SceneState, deliveredTo l ls (post.map .push) = post := by
  intro post
  induction post with
  | nil => rfl
  | cons s rest ih => simp [deliveredTo, hl, ih]

/-- Pushes are invisible to a listener not yet subscribed. -/
theorem deliveredTo_skips_before_attach (l : Nat) (ls : List Nat)
    (hl : l ∉ ls) (pre : List SceneState) (tail : List ServiceEvent) :
    deliveredTo l ls (pre.map .push ++ tail) = deliveredTo l ls tail := by
  induction pre with
  | nil => rfl
  | cons s rest ih => simp [deliveredTo, hl, ih]

/-- Claim C8, amended: attaching delivers nothing to the new listener — there
is no replay of a held current snapshot; the listener receives exactly the
snapshots pushed after its attach. -/
theorem subscriber_gets_only_later_pushes (l : Nat) (ls : List Nat)
    (pre post : List SceneState) (hl : l ∉ ls) :
    deliveredTo l ls (pre.map .push ++ .attach l :: post.map .push) = post := by
  rw [deliveredTo_skips_before_attach l ls hl]
  show deliveredTo l (addListener ls l) (post.map .push) = post
  exact deliveredTo_pushes_of_mem l _ (by simp [addListener, hl]) post

/-- Witness for C8 (amended): a snapshot pushed before the attach is not
delivered, one pushed after it is. -/
theorem subscriber_gets_only_later_pushes_witness :
    (0 : Nat) ∉ ([] : List Nat) ∧
    deliveredTo 0 []
      ([sampleSnap].map .push ++ .attach 0 :: [sampleSnapPending].map .push) =
      [sampleSnapPending] :=
  ⟨by decide, subscriber_gets_only_later_pushes 0 [] [sampleSnap]
    [sampleSnapPending] (by decide)⟩

/-! ### Association-map lemmas -/

/-- Lookup distributes over append: the left map wins when it binds the key. -/
theorem lookupA_append {β : Type} (m1 m2 : List (String × β)) (k : String) :
    lookupA (m1 ++ m2) k =
      match lookupA m1 k with
      | some v => some v
      | none => lookupA m2 k := by
  induction m1 with
  | nil => rfl
  | cons p rest ih =>
    by_cases hp : p.1 = k
    · simp [lookupA, hp]
    · simp [lookupA, hp, ih]

/-- Lookup after replacing every entry bound to `k` by `(k, v)`: the key `k`
itself now maps to `v`, provided it was bound at all. -/
theorem lookupA_replace_self {β : Type} (m : List (String × β)) (k : String)
    (v : β) (h : (lookupA m k).isSome) :
    lookupA (m.map fun p => if p.1 = k then (k, v) else p) k = some v := by
  induction m with
  | nil => simp [lookupA] at h
  | cons p rest ih =>
    by_cases hp : p.1 = k
    · simp [lookupA, hp]
    · simp only [List.map_cons, hp, ite_false, lookupA, if_neg hp]
      exact ih (by simpa [lookupA, hp] using h)

/-- Replacing the entries bound to `k` leaves every other key unchanged. -/
theorem lookupA_replace_ne {β : Type} (m : List (String × β)) (k k2 : String)
    (v : β) (hne : k2 ≠ k) :
    lookupA (m.map fun p => if p.1 = k then (k, v) else p) k2 = lookupA m k2 := by
  induction m with
  | nil => rfl
  | cons p rest ih =>
    by_cases hp : p.1 = k
    · have hkk2 : ¬ k = k2 := fun he => hne he.symm
      have hp2 : ¬ p.1 = k2 := by
        rw [hp]
        exact hkk2
      simp only [List.map_cons, hp, ite_true, lookupA, if_neg hp2, if_neg hkk2]
      exact ih
    · simp only [List.map_cons, hp, ite_false, lookupA]
      by_cases hp2 : p.1 = k2
      · simp [hp2]
      · rw [if_neg hp2, if_neg hp2]
        exact ih

/-- Looking up the key just set yields the new value. -/
theorem lookupA_setA_self {β : Type} (m : List (String × β)) (k : String)
    (v : β) : lookupA (setA m k v) k = some v := by
  unfold setA
  by_cases h : (lookupA m k).isSome
  · rw [if_pos h]
    exact lookupA_replace_self m k v h
  · rw [if_neg h, lookupA_append]
    have hn : lookupA m k = none := by
      cases hc : lookupA m k
      · rfl
      · simp [hc] at h
    simp [hn, lookupA]

/-- Setting one key leaves every other key's lookup unchanged. -/
theorem lookupA_setA_ne {β : Type} (m : List (String × β)) (k k2 : String)
    (v : β) (hne : k2 ≠ k) : lookupA (setA m k v) k2 = lookupA m k2 := by
  unfold setA
  by_cases h : (lookupA m k).isSome
  · rw [if_pos h]
    exact lookupA_replace_ne m k k2 v hne
  · rw [if_neg h, lookupA_append]
    have hkk2 : ¬ k = k2 := fun he => hne he.symm
    cases hc : lookupA m k2
    · simp [lookupA, hkk2]
    · simp

/-! ### C9 / C10 — which characters get a bubble -/

/-- A successful `updateBubbles` iteration either leaves the bubble map alone
or sets the bubble of the character it processed. -/
theorem updateBubblesStep_ok_shape (mgr : CharMgr) (msgs : List Message)
    (acc : BubbleMap) (k : String) (v : CharacterState) (acc2 : BubbleMap)
    (h : updateBubblesStep mgr msgs acc k v = .ok acc2) :
    acc2 = acc ∨ ∃ bi, acc2 = setA acc k bi := by
  unfold updateBubblesStep at h
  split at h
  · split at h
    · simp only [Except.ok.injEq] at h
      exact Or.inl h.symm
    · split at h
      · simp at h
      · split at h
        · simp only [Except.ok.injEq] at h
          exact Or.inr ⟨_, h.symm⟩
        · simp only [Except.ok.injEq] at h
          exact Or.inl h.symm
  · simp only [Except.ok.injEq] at h
    exact Or.inl h.symm

/-- If every entry keyed `k` in the remaining snapshot entries is processed
without creating a bubble, key `k` stays absent from the bubble map built by
the `updateBubbles` loop — also when the loop aborts with an exception. -/
theorem updateBubblesGo_lookup_none (mgr : CharMgr) (msgs : List Message)
    (k : String) :
    ∀ (entries : List (String × CharacterState)) (acc : BubbleMap),
      lookupA acc k = none →
      (∀ p ∈ entries, p.1 = k → ∀ b : BubbleMap,
        updateBubblesStep mgr msgs b k p.2 = .ok b) →
      lookupA (updateBubblesGo mgr msgs entries acc).1 k = none := by
  intro entries
  induction entries with
  | nil =>
    intro acc hacc _
    exact hacc
  | cons p rest ih =>
    intro acc hacc hents
    rcases p with ⟨k0, v⟩
    by_cases hk : k0 = k
    · subst hk
      have hstep := hents (k0, v) (List.mem_cons_self _ _) rfl acc
      simp only [updateBubblesGo, hstep]
      exact ih acc hacc fun q hq hqk => hents q (List.mem_cons_of_mem _ hq) hqk
    · cases hs : updateBubblesStep mgr msgs acc k0 v with
      | ok acc2 =>
        simp only [updateBubblesGo, hs]
        have hacc2 : lookupA acc2 k = none := by
          rcases updateBubblesStep_ok_shape mgr msgs acc k0 v acc2 hs with
            rfl | ⟨bi, rfl⟩
          · exact hacc
          · rw [lookupA_setA_ne acc k0 k bi fun he => hk he.symm]
            exact hacc
        exact ih acc2 hacc2 fun q hq hqk => hents q (List.mem_cons_of_mem _ hq) hqk
      | error e =>
        simp only [updateBubblesGo, hs]
        exact hacc

/-- Claim C9: after Effect derivation runs over a snapshot, no active bubble
is keyed by a character whose action in that snapshot is not `speaking` —
including runs aborted by an exception, whose partial bubble map also lacks
the key. -/
theorem no_bubble_for_non_speaker (mgr : CharMgr) (s : SceneState)
    (k : String)
    (hns : ∀ p ∈ s.characters, p.1 = k → p.2.action ≠ "speaking") :
    lookupA (updateBubblesRun mgr s).1 k = none := by
  unfold updateBubblesRun
  apply updateBubblesGo_lookup_none
  · rfl
  · intro p hp hpk b
    have hna := hns p hp hpk
    unfold updateBubblesStep
    rw [if_neg hna]

/-- Witness for C9: in the sample snapshot `alice` is idle, and after the
derivation no bubble exists for `alice`. -/
theorem no_bubble_for_non_speaker_witness :
    (∀ p ∈ sampleSnap.characters, p.1 = "alice" → p.2.action ≠ "speaking") ∧
    lookupA (updateBubblesRun (updateCharacters [] sampleSnap) sampleSnap).1
      "alice" = none :=
  ⟨by decide, no_bubble_for_non_speaker _ _ _ (by decide)⟩

/-- Claim C10: a speaking character whose latest own message exists but has
null or empty content is processed without error and without creating a
bubble, and no bubble for that character survives the whole derivation. -/
theorem pending_turn_creates_no_bubble (mgr : CharMgr) (s : SceneState)
    (k : String) (cs : CharacterState) (m : Message)
    (hact : cs.action = "speaking")
    (hall : ∀ p ∈ s.characters, p.1 = k → p.2 = cs)
    (hlast : (s.messages.filter fun mm => mm.character = k).getLast? = some m)
    (hempty : m.content = none ∨ m.content = some "") :
    (∀ b : BubbleMap, updateBubblesStep mgr s.messages b k cs = .ok b) ∧
    lookupA (updateBubblesRun mgr s).1 k = none := by
  have hstep : ∀ b : BubbleMap,
      updateBubblesStep mgr s.messages b k cs = .ok b := by
    intro b
    unfold updateBubblesStep
    rw [if_pos hact]
    cases hch : lookupA mgr k with
    | none => rfl
    | some ch =>
      simp only [hlast]
      rcases hempty with he | he <;> simp [he, strTruthy]
  refine ⟨hstep, ?_⟩
  unfold updateBubblesRun
  apply updateBubblesGo_lookup_none
  · rfl
  · intro p hp hpk b
    rw [hall p hp hpk]
    exact hstep b

/-- Witness for C10: `bob` is speaking while his only message still has null
content; the derivation leaves no bubble for `bob`. -/
theorem pending_turn_creates_no_bubble_witness :
    sampleSpeaking.action = "speaking" ∧
    (sampleSnapPending.messages.filter fun mm => mm.character = "bob").getLast?
      = some samplePendingMsg ∧
    lookupA (updateBubblesRun (updateCharacters [] sampleSnapPending)
      sampleSnapPending).1 "bob" = none :=
  ⟨rfl, by decide,
    (pending_turn_creates_no_bubble _ _ "bob" sampleSpeaking samplePendingMsg
      rfl (by decide) (by decide) (Or.inl rfl)).2⟩

/-! ### C1 — last-write-wins snapshot ingestion -/

/-- `StateManager.historyModeChange` never touches the held snapshot. -/
theorem smHistoryModeChange_currentState (c : ClientState) (b : Bool) :
    (smHistoryModeChange c b).1.currentState = c.currentState := by
  cases b <;> cases hc : c.currentState <;>
    simp only [smHistoryModeChange, hc] <;>
    (repeat' split) <;> rfl

/-- `StateManager.navigateHistory` never touches the held snapshot. -/
theorem smNavigateHistory_currentState (c : ClientState) (idx : Int) :
    (smNavigateHistory c idx).currentState = c.currentState := by
  unfold smNavigateHistory
  split
  · split
    · split <;> rfl
    · rfl
  · rfl

/-- Effect of one event on the held snapshot: a pushed snapshot replaces it,
every other event leaves it unchanged. -/
theorem stepEvent_currentState (c : ClientState) (e : ClientEvent) :
    (stepEvent c e).1.currentState =
      match eventSnap? e with
      | some s => some s
      | none => c.currentState := by
  cases e with
  | snapshot s =>
    show (smUpdateState c s).1.currentState = some s
    unfold smUpdateState
    dsimp only
    (repeat' split) <;> rfl
  | enterHist =>
    show (enterHistory c).1.currentState = c.currentState
    unfold enterHistory emitHistoryModeChange cmHistoryModeChange
    rw [smHistoryModeChange_currentState]
    simp
  | exitHist =>
    show (exitHistory c).1.currentState = c.currentState
    unfold exitHistory emitHistoryModeChange cmHistoryModeChange
    rw [smHistoryModeChange_currentState]
    simp
  | navigate d =>
    show (navigateEvent c d).1.currentState = c.currentState
    unfold navigateEvent
    dsimp only
    split
    · rw [smNavigateHistory_currentState]
    · rfl

/-- The held snapshot after an event sequence is the overwrite-fold of the
snapshots it contains. -/
theorem runEvents_currentState (c : ClientState) (es : List ClientEvent) :
    (runEvents c es).currentState =
      (es.filterMap eventSnap?).foldl (fun _ x => some x) c.currentState := by
  induction es generalizing c with
  | nil => rfl
  | cons e rest ih =>
    show (runEvents (stepEvent c e).1 rest).currentState = _
    rw [ih]
    have hstep := stepEvent_currentState c e
    cases e with
    | snapshot s =>
      simp only [eventSnap?] at hstep
      simp [List.filterMap_cons, eventSnap?, hstep]
    | enterHist =>
      simp only [eventSnap?] at hstep
      simp [List.filterMap_cons, eventSnap?, hstep]
    | exitHist =>
      simp only [eventSnap?] at hstep
      simp [List.filterMap_cons, eventSnap?, hstep]
    | navigate d =>
      simp only [eventSnap?] at hstep
      simp [List.filterMap_cons, eventSnap?, hstep]

/-- An overwrite-fold yields the last element of the list. -/
theorem foldl_overwrite_getLast (l : List SceneState) (s : SceneState)
    (a : Option SceneState) (h : l.getLast? = some s) :
    l.foldl (fun _ x => some x) a = some s := by
  induction l generalizing a with
  | nil => simp at h
  | cons x rest ih =>
    cases rest with
    | nil =>
      simp only [List.getLast?_singleton, Option.some.injEq] at h
      simp [List.foldl, h]
    | cons y t =>
      rw [List.getLast?_cons_cons] at h
      exact ih (some x) h

/-- Claim C1: for every event sequence delivered to the client — snapshot
pushes interleaved arbitrarily with History-mode toggles and navigation —
the State Store's current snapshot afterwards is the last snapshot applied,
regardless of whether History mode was active during any of the pushes. -/
theorem last_snapshot_wins (c : ClientState) (es : List ClientEvent)
    (s : SceneState)
    (hlast : (es.filterMap eventSnap?).getLast? = some s) :
    (runEvents c es).currentState = some s := by
  rw [runEvents_currentState]
  exact foldl_overwrite_getLast _ s _ hlast

/-- Witness for C1: two snapshots arrive, the second while History mode is
active; the store ends up holding the second. -/
theorem last_snapshot_wins_witness :
    (([ClientEvent.snapshot sampleSnap, .enterHist,
        .snapshot sampleSnapPending, .exitHist].filterMap eventSnap?).getLast?
      = some sampleSnapPending) ∧
    (runEvents ClientState.initial [.snapshot sampleSnap, .enterHist,
        .snapshot sampleSnapPending, .exitHist]).currentState
      = some sampleSnapPending :=
  ⟨by decide, last_snapshot_wins _ _ _ (by decide)⟩

/-! ### C6 — history round trip restores live rendering -/

/-- The character record produced by one `updateCharacters` iteration, as a
function of the previously stored action and the incoming state. -/
def nextChar (prevAction : String) (st : CharacterState) : MChar :=
  if st.action = "idle" then
    ⟨st, st.color, false, false, st.action.startsWith "thinking"⟩
  else
    ⟨st, st.color, true, decide (st.action ≠ prevAction),
      st.action.startsWith "thinking"⟩

/-- Updating a stored character depends only on its previously stored action. -/
theorem updateCharacterState_eq (c : MChar) (st : CharacterState) :
    updateCharacterState { c with color := st.color } st =
      nextChar c.state.action st := by
  unfold updateCharacterState nextChar
  dsimp only
  generalize st.action.startsWith "thinking" = tb
  by_cases hi : st.action = "idle" <;> cases tb <;> simp [hi]

/-- Updating a freshly created character: the stored state is already the
incoming one, so no action change is seen. -/
theorem updateCharacterState_fresh (st : CharacterState) :
    updateCharacterState (freshChar st) st = nextChar st.action st := by
  unfold updateCharacterState nextChar freshChar
  dsimp only
  generalize st.action.startsWith "thinking" = tb
  by_cases hi : st.action = "idle" <;> cases tb <;> simp [hi]

/-- Lookup of the key just processed by `updateOneCharacter`. -/
theorem lookupA_updateOne_self (m : CharMgr) (k : String)
    (st : CharacterState) :
    lookupA (updateOneCharacter m k st) k =
      some (nextChar (((lookupA m k).map fun c => c.state.action).getD
        st.action) st) := by
  unfold updateOneCharacter
  cases hm : lookupA m k with
  | none =>
    rw [lookupA_setA_self, updateCharacterState_fresh]
    rfl
  | some c =>
    rw [lookupA_setA_self, updateCharacterState_eq]
    rfl

/-- `updateOneCharacter` leaves other keys untouched. -/
theorem lookupA_updateOne_ne (m : CharMgr) (k k2 : String)
    (st : CharacterState) (hne : k2 ≠ k) :
    lookupA (updateOneCharacter m k st) k2 = lookupA m k2 := by
  unfold updateOneCharacter
  cases hm : lookupA m k <;> rw [lookupA_setA_ne _ _ _ _ hne]

/-- Two character managers agree on the stored `CharacterState` of every key
(presence included); flags like tween and thinking sprite may differ. -/
def stateAgree (m1 m2 : CharMgr) : Prop :=
  ∀ k, (lookupA m1 k).map MChar.state = (lookupA m2 k).map MChar.state

/-- `clearCharactersAnimations` acts pointwise on the stored characters. -/
theorem lookupA_clearAnims (m : CharMgr) (k : String) :
    lookupA (clearAnims m) k =
      (lookupA m k).map fun c => { c with bouncing := false, thinking := false } := by
  induction m with
  | nil => rfl
  | cons p rest ih =>
    have hcons : clearAnims (p :: rest) =
        (p.1, { p.2 with bouncing := false, thinking := false })
          :: clearAnims rest := rfl
    rw [hcons]
    by_cases hp : p.1 = k
    · simp [lookupA, hp]
    · simp [lookupA, hp, ih]

/-- Clearing animations preserves the stored character states. -/
theorem clearAnims_stateAgree (m : CharMgr) : stateAgree (clearAnims m) m := by
  intro k
  rw [lookupA_clearAnims]
  cases lookupA m k <;> rfl

/-- One `updateCharacters` iteration keeps two state-agreeing managers in
agreement, and makes their lookups at the processed key fully equal. -/
theorem updateOne_agree (m1 m2 : CharMgr) (k0 : String) (st : CharacterState)
    (h : stateAgree m1 m2) :
    stateAgree (updateOneCharacter m1 k0 st) (updateOneCharacter m2 k0 st) ∧
    lookupA (updateOneCharacter m1 k0 st) k0 =
      lookupA (updateOneCharacter m2 k0 st) k0 := by
  have ha : ((lookupA m1 k0).map fun c => c.state.action) =
      ((lookupA m2 k0).map fun c => c.state.action) := by
    have h1 := congrArg (Option.map fun s : CharacterState => s.action) (h k0)
    simpa [Option.map_map, Function.comp] using h1
  have hk0 : lookupA (updateOneCharacter m1 k0 st) k0 =
      lookupA (updateOneCharacter m2 k0 st) k0 := by
    rw [lookupA_updateOne_self, lookupA_updateOne_self, ha]
  refine ⟨?_, hk0⟩
  intro k
  by_cases hk : k = k0
  · subst hk
    rw [hk0]
  · rw [lookupA_updateOne_ne _ _ _ _ hk, lookupA_updateOne_ne _ _ _ _ hk]
    exact h k

/-- Folding `updateCharacters` over the same entries preserves state
agreement. -/
theorem updateCharsFold_agree (entries : List (String × CharacterState)) :
    ∀ m1 m2, stateAgree m1 m2 →
      stateAgree (entries.foldl (fun m p => updateOneCharacter m p.1 p.2) m1)
        (entries.foldl (fun m p => updateOneCharacter m p.1 p.2) m2) := by
  induction entries with
  | nil =>
    intro m1 m2 h
    exact h
  | cons p rest ih =>
    intro m1 m2 h
    exact ih _ _ (updateOne_agree m1 m2 p.1 p.2 h).1

/-- After folding `updateCharacters` over the same entries starting from two
state-agreeing managers, the lookups agree at every key the entries touch
(and at every key where they already agreed). -/
theorem updateCharsFold_lookup (entries : List (String × CharacterState)) :
    ∀ m1 m2 (k : String), stateAgree m1 m2 →
      (lookupA m1 k = lookupA m2 k ∨ k ∈ entries.map Prod.fst) →
      lookupA (entries.foldl (fun m p => updateOneCharacter m p.1 p.2) m1) k =
      lookupA (entries.foldl (fun m p => updateOneCharacter m p.1 p.2) m2) k := by
  induction entries with
  | nil =>
    intro m1 m2 k _ hd
    rcases hd with hd | hd
    · exact hd
    · simp at hd
  | cons p rest ih =>
    intro m1 m2 k h hd
    have hstep := updateOne_agree m1 m2 p.1 p.2 h
    apply ih _ _ k hstep.1
    by_cases hk : k = p.1
    · subst hk
      exact Or.inl hstep.2
    · rcases hd with hd | hd
      · refine Or.inl ?_
        rw [lookupA_updateOne_ne _ _ _ _ hk, lookupA_updateOne_ne _ _ _ _ hk]
        exact hd
      · simp only [List.map_cons, List.mem_cons] at hd
        rcases hd with hd | hd
        · exact absurd hd hk
        · exact Or.inr hd

/-- One `updateBubbles` iteration only consults the manager at its own key. -/
theorem updateBubblesStep_congr (m1 m2 : CharMgr) (msgs : List Message)
    (acc : BubbleMap) (k : String) (v : CharacterState)
    (h : lookupA m1 k = lookupA m2 k) :
    updateBubblesStep m1 msgs acc k v = updateBubblesStep m2 msgs acc k v := by
  unfold updateBubblesStep
  rw [h]

/-- The `updateBubbles` loop gives the same result over two managers that
agree at every key it visits. -/
theorem updateBubblesGo_congr (m1 m2 : CharMgr) (msgs : List Message) :
    ∀ (entries : List (String × CharacterState)) (acc : BubbleMap),
      (∀ p ∈ entries, lookupA m1 p.1 = lookupA m2 p.1) →
      updateBubblesGo m1 msgs entries acc =
      updateBubblesGo m2 msgs entries acc := by
  intro entries
  induction entries with
  | nil =>
    intro acc _
    rfl
  | cons p rest ih =>
    intro acc hent
    rcases p with ⟨k, v⟩
    have h1 := hent (k, v) (List.mem_cons_self _ _)
    simp only [updateBubblesGo,
      updateBubblesStep_congr m1 m2 msgs acc k v h1]
    cases hs : updateBubblesStep m2 msgs acc k v with
    | ok acc2 => exact ih acc2 fun q hq => hent q (List.mem_cons_of_mem _ hq)
    | error e => rfl

/-- Fields of the client after a live-mode snapshot update. -/
theorem smUpdateState_fields (c : ClientState) (s : SceneState)
    (h : c.smHistoryMode = false) :
    (smUpdateState c s).1.currentState = some s ∧
    (smUpdateState c s).1.smHistoryMode = false ∧
    (smUpdateState c s).1.chars = updateCharacters c.chars s ∧
    (smUpdateState c s).1.bubbles =
      (updateBubblesRun (updateCharacters c.chars s) s).1 := by
  unfold smUpdateState
  dsimp only
  rw [h]
  simp only [Bool.false_eq_true, if_false]
  split
  · exact ⟨rfl, rfl, rfl, rfl⟩
  · split
    · exact ⟨rfl, rfl, rfl, rfl⟩
    · exact ⟨rfl, rfl, rfl, rfl⟩

/-- Entering History mode at the `CharacterManager` clears the animations. -/
theorem cmHistoryModeChange_true (c : ClientState) :
    cmHistoryModeChange c true = { c with chars := clearAnims c.chars } := rfl

/-- Leaving History mode at the `CharacterManager` is a no-op. -/
theorem cmHistoryModeChange_false (c : ClientState) :
    cmHistoryModeChange c false = c := rfl

/-- Entering History mode at the `StateManager` leaves the characters and
the held snapshot alone (it only shows a bubble or throws). -/
theorem smHistoryModeChange_true_fields (c : ClientState) (s : SceneState)
    (h : c.currentState = some s) :
    (smHistoryModeChange c true).1.chars = c.chars ∧
    (smHistoryModeChange c true).1.currentState = c.currentState := by
  unfold smHistoryModeChange
  dsimp only
  rw [h]
  dsimp only
  cases hg : s.messages.getLast? <;> simp only [hg] <;> exact ⟨rfl, rfl⟩

/-- Leaving History mode at the `StateManager` re-renders the held snapshot. -/
theorem smHistoryModeChange_false_fields (c : ClientState) (s : SceneState)
    (h : c.currentState = some s) :
    (smHistoryModeChange c false).1.chars = updateCharacters c.chars s ∧
    (smHistoryModeChange c false).1.bubbles =
      (updateBubblesRun (updateCharacters c.chars s) s).1 := by
  unfold smHistoryModeChange
  dsimp only
  rw [h]
  dsimp only
  exact ⟨rfl, rfl⟩

/-- After `enterHistory`, the character animations are cleared and the held
snapshot is untouched. -/
theorem enterHistory_fields (c : ClientState) (s : SceneState)
    (h : c.currentState = some s) :
    (enterHistory c).1.chars = clearAnims c.chars ∧
    (enterHistory c).1.currentState = some s := by
  unfold enterHistory emitHistoryModeChange
  dsimp only
  rw [cmHistoryModeChange_true]
  constructor
  · exact (smHistoryModeChange_true_fields _ s (by exact h)).1
  · rw [smHistoryModeChange_currentState]
    exact h

/-- After `exitHistory`, the current snapshot has been re-rendered: the
characters are updated from it and the bubbles re-derived. -/
theorem exitHistory_fields (c : ClientState) (s : SceneState)
    (h : c.currentState = some s) :
    (exitHistory c).1.chars = updateCharacters c.chars s ∧
    (exitHistory c).1.bubbles =
      (updateBubblesRun (updateCharacters c.chars s) s).1 := by
  unfold exitHistory emitHistoryModeChange
  dsimp only
  rw [cmHistoryModeChange_false]
  exact smHistoryModeChange_false_fields _ s (by exact h)

/-- Claim C6: if snapshot `S` was the last snapshot applied in Live mode,
entering History and immediately exiting it (no snapshot in between) renders
exactly like rendering `S` directly in Live mode again: the same lookup for
each of `S`'s characters and the same derived bubble map. -/
theorem history_roundtrip_renders_like_live (c0 : ClientState)
    (S : SceneState) (h : c0.smHistoryMode = false) :
    renderObs S (runEvents (smUpdateState c0 S).1
      [ClientEvent.enterHist, ClientEvent.exitHist]) =
    renderObs S ((smUpdateState (smUpdateState c0 S).1 S).1) := by
  obtain ⟨hc1cur, hc1mode, hc1chars, hc1bub⟩ := smUpdateState_fields c0 S h
  obtain ⟨hech, heccur⟩ := enterHistory_fields (smUpdateState c0 S).1 S hc1cur
  obtain ⟨hxch, hxbub⟩ :=
    exitHistory_fields (enterHistory (smUpdateState c0 S).1).1 S heccur
  obtain ⟨_, _, h2chars, h2bub⟩ :=
    smUpdateState_fields (smUpdateState c0 S).1 S hc1mode
  have hrun : runEvents (smUpdateState c0 S).1
      [ClientEvent.enterHist, ClientEvent.exitHist] =
      (exitHistory (enterHistory (smUpdateState c0 S).1).1).1 := rfl
  have hagree : stateAgree (clearAnims (smUpdateState c0 S).1.chars)
      ((smUpdateState c0 S).1.chars) := clearAnims_stateAgree _
  have hlook : ∀ k, k ∈ S.characters.map Prod.fst →
      lookupA (updateCharacters (clearAnims (smUpdateState c0 S).1.chars) S) k
        = lookupA (updateCharacters ((smUpdateState c0 S).1.chars) S) k := by
    intro k hk
    exact updateCharsFold_lookup S.characters _ _ k hagree (Or.inr hk)
  unfold renderObs
  rw [hrun]
  have hcpart : (S.characters.map fun p =>
        (p.1, lookupA (exitHistory (enterHistory (smUpdateState c0 S).1).1).1.chars p.1))
      = S.characters.map fun p =>
        (p.1, lookupA ((smUpdateState (smUpdateState c0 S).1 S).1).chars p.1) := by
    apply List.map_congr_left
    intro p hp
    rw [hxch, hech, h2chars]
    exact congrArg (fun o => (p.1, o))
      (hlook p.1 (List.mem_map_of_mem Prod.fst hp))
  have hbpart : (exitHistory (enterHistory (smUpdateState c0 S).1).1).1.bubbles
      = ((smUpdateState (smUpdateState c0 S).1 S).1).bubbles := by
    rw [hxbub, hech, h2bub]
    unfold updateBubblesRun
    rw [updateBubblesGo_congr _ _ S.messages S.characters []
      (fun p hp => hlook p.1 (List.mem_map_of_mem Prod.fst hp))]
  rw [hcpart, hbpart]

/-- Witness for C6: from the initial client in Live mode, applying the sample
snapshot and toggling History on and off renders like re-applying it. -/
theorem history_roundtrip_renders_like_live_witness :
    ClientState.initial.smHistoryMode = false ∧
    renderObs sampleSnap (runEvents (smUpdateState ClientState.initial
        sampleSnap).1 [ClientEvent.enterHist, ClientEvent.exitHist]) =
      renderObs sampleSnap ((smUpdateState (smUpdateState ClientState.initial
        sampleSnap).1 sampleSnap).1) :=
  ⟨rfl, history_roundtrip_renders_like_live ClientState.initial sampleSnap rfl⟩
